import Mathlib

/-!
Shallow embedding of the Soroban crowdfund contract
(`src/contracts/crowdfund/src/lib.rs`) and proofs about the claims of its
natural-language specification.

Modelling conventions:
* Addresses are `Nat`; the contract's own address is the constant
  `contract_address`. Soroban `String` metadata values are opaque `Nat`
  tokens (`0` denotes the empty string, matching `String::is_empty`).
* `i128` is `Int` together with explicit range checks: `checked_add` /
  `checked_mul` / `checked_sub` model the Rust checked operations, and
  `wrap_add` / `wrap_mul` model the unchecked `+` / `*` of release-profile
  Rust, which wrap two's-complement modulo `2 ^ 128`.
* Rust `i128` division truncates toward zero, so it is modelled by
  `Int.tdiv` (Lean's `/` on `Int` is Euclidean division).
* Contract storage is the `CampaignState` structure. It represents the
  storage of a contract on which `initialize` has already succeeded, so the
  instance keys that `initialize` always writes (Creator, Token, Goal,
  Deadline, MinContribution, TotalRaised, Status, Paused) are plain fields,
  while keys that `initialize` does not write are `Option`-valued
  (`hard_cap`, `platform_config`, `admin`, `contributors_instance`, the
  metadata fields) or collapse absence with their `unwrap_or` default
  (`total_pledged`, `contributions`, `pledges`, `referral_tally` default to
  `0`; `pledgers`, `stretch_goals` default to empty). The storage tier
  matters and is modelled: the persistent `Contributors` key is the field
  `contributors`, while the distinct instance-storage `Contributors` key
  (read only by `get_stats`) is `contributors_instance`, and the
  instance-storage `Contribution(addr)` keys (read only by `get_stats`) are
  `contributions_instance`.
* `require_auth` is host-level; an operation in a trace stands for a call
  that the required principal authorized, so auth checks always pass.
* Each operation returns `Except ContractError (CampaignState × List
  Transfer)`. An `.error` result models both structured contract errors and
  Rust panics (the `Panic` constructor); in either case the host reverts
  every storage write and token transfer of the call, so an error carries
  no state. Token transfers performed by a successful call are returned as
  the `List Transfer` trace; the external token contract is out of scope
  and its `transfer` is modelled as always succeeding.
-/

set_option maxRecDepth 100000

namespace Crowdfund

-- ── i128 arithmetic model ──────────────────────────────────────────────────

/-- Smallest `i128` value. -/
def i128Min : Int := -(2 ^ 127)

/-- Largest `i128` value. -/
def i128Max : Int := 2 ^ 127 - 1

/-- The value fits in `i128`. -/
def inI128 (x : Int) : Prop := i128Min ≤ x ∧ x ≤ i128Max

instance (x : Int) : Decidable (inI128 x) := by
  unfold inI128
  infer_instance

/-- Rust `i128::checked_add`. -/
def checked_add (a b : Int) : Option Int :=
  if inI128 (a + b) then some (a + b) else none

/-- Rust `i128::checked_mul`. -/
def checked_mul (a b : Int) : Option Int :=
  if inI128 (a * b) then some (a * b) else none

/-- Rust `i128::checked_sub`. -/
def checked_sub (a b : Int) : Option Int :=
  if inI128 (a - b) then some (a - b) else none

/-- Reduce an integer to the `i128` range, two's-complement style. -/
def wrap_i128 (x : Int) : Int := (x + 2 ^ 127) % 2 ^ 128 - 2 ^ 127

/-- Unchecked Rust `+` on `i128` (wraps in a release build). -/
def wrap_add (a b : Int) : Int := wrap_i128 (a + b)

/-- Unchecked Rust `*` on `i128` (wraps in a release build). -/
def wrap_mul (a b : Int) : Int := wrap_i128 (a * b)

-- ── Data types (from lib.rs) ───────────────────────────────────────────────

/-- Campaign status enum (`Status` in lib.rs). -/
inductive Status
  | Active
  | Successful
  | Refunded
  | Cancelled
deriving DecidableEq

/-- Reasons for Rust panics / `unwrap` aborts in the contract, tagged so that
theorems can tell them apart. Each constructor corresponds to one abort site
in lib.rs. -/
inductive PanicMsg
  | belowMinimum
  | notActive
  | missingHardCap
  | missingAdmin
  | missingContributorsInstance
  | feeOverflow
  | payoutUnderflow
  | notLaterDeadline
  | dateNotFuture
  | emptyDescription
  | notAuthorized
  | stretchTooSmall
  | nonPositiveTier
deriving DecidableEq

/-- Contract error codes (`ContractError` in lib.rs; `AlreadyInit` models the
source's first error code, triggered on re-running the constructor). The extra
`Panic` constructor models Rust panics and `unwrap` aborts, which also fail
the call but are not structured error codes. -/
inductive ContractError
  | AlreadyInit
  | CampaignEnded
  | CampaignStillActive
  | GoalNotReached
  | GoalReached
  | Overflow
  | InvalidHardCap
  | HardCapExceeded
  | RateLimitExceeded
  | ContractPaused
  | InvalidLimit
  | Panic (m : PanicMsg)
deriving DecidableEq

/-- Whether a failed call failed by a Rust panic / abort (as opposed to
returning a structured error code). -/
def ContractError.isPanic : ContractError → Bool
  | .Panic _ => true
  | _ => false

/-- Platform configuration (`PlatformConfig` in lib.rs); `fee_bps` is `u32`. -/
structure PlatformConfig where
  address : Nat
  fee_bps : Nat
deriving DecidableEq

/-- Derived statistics returned by `get_stats` (`CampaignStats` in lib.rs). -/
structure CampaignStats where
  total_raised : Int
  goal : Int
  progress_bps : Nat
  contributor_count : Nat
  average_contribution : Int
  largest_contribution : Int
deriving DecidableEq

/-- A token transfer `(from, to, amount)` performed by the contract via the
external token client. -/
abbrev Transfer := Nat × Nat × Int

/-- The contract's own address (`env.current_contract_address()`). -/
def contract_address : Nat := 0

/-- Seconds required between contributions from one address
(`CONTRIBUTION_COOLDOWN` in lib.rs). -/
def CONTRIBUTION_COOLDOWN : Nat := 5

/-- Storage of an initialized crowdfund contract instance; see the module
comment for which `DataKey`s map to which fields and how absence is
represented. -/
structure CampaignState where
  creator : Nat
  token : Nat
  goal : Int
  hard_cap : Option Int
  deadline : Nat
  min_contribution : Int
  total_raised : Int
  total_pledged : Int
  status : Status
  paused : Bool
  contributions : Nat → Int
  contributors : List Nat
  contributors_instance : Option (List Nat)
  contributions_instance : Nat → Int
  pledges : Nat → Int
  pledgers : List Nat
  last_contribution_time : Nat → Option Nat
  referral_tally : Nat → Int
  platform_config : Option PlatformConfig
  stretch_goals : List Int
  admin : Option Nat
  title : Option Nat
  description : Option Nat
  socials : Option Nat
  roadmap : List (Nat × Nat)
  reward_tiers : List (Nat × Int)

/-- Pointwise update of a map-like field. -/
def setF {α : Type} (f : Nat → α) (a : Nat) (v : α) : Nat → α :=
  fun x => if x = a then v else f x

/-- The storage produced by a successful run of the contract constructor
(`initialize` in lib.rs, lines 182-236). The constructor stores Creator,
Token, Goal, Deadline, MinContribution, TotalRaised = 0, Status = Active,
Paused = false, an empty persistent Contributors list and empty Roadmap and
RewardTiers lists. It ignores its `_hard_cap` argument and never writes the
HardCap key, and it validates but never stores its `platform_config`
argument, so both are absent here. -/
def post_init (creator token : Nat) (goal : Int) (deadline : Nat)
    (min_contribution : Int) : CampaignState where
  creator := creator
  token := token
  goal := goal
  hard_cap := none
  deadline := deadline
  min_contribution := min_contribution
  total_raised := 0
  total_pledged := 0
  status := .Active
  paused := false
  contributions := fun _ => 0
  contributors := []
  contributors_instance := none
  contributions_instance := fun _ => 0
  pledges := fun _ => 0
  pledgers := []
  last_contribution_time := fun _ => none
  referral_tally := fun _ => 0
  platform_config := none
  stretch_goals := []
  admin := none
  title := none
  description := none
  socials := none
  roadmap := []
  reward_tiers := []

/-- Modelled from the spec: the constructor's own doc comment and the spec
(`hard_cap – Maximum total amount that can be raised (must be >= goal)`;
spec §3: a campaign has `hard_cap` set at creation) intend the HardCap key to
be written from the constructor's `hard_cap` argument, but the code drops the
argument and the write is missing from the source. This state is `post_init`
plus that intended write; it is used to reach the contribution-bearing states
the test suite expects to exist. -/
def post_init_spec (creator token : Nat) (goal : Int) (deadline : Nat)
    (min_contribution : Int) (hard_cap : Int) : CampaignState :=
  { post_init creator token goal deadline min_contribution with
    hard_cap := some hard_cap }

/-- States a campaign can start in: the code-faithful `post_init` storage
with the HardCap key either absent (as the code leaves it) or holding a value
(the spec-intended write, see `post_init_spec`). -/
def InitialState (s0 : CampaignState) : Prop :=
  ∃ creator token goal deadline min_contribution hc0,
    s0 = { post_init creator token goal deadline min_contribution with
           hard_cap := hc0 }

-- ── Operations (from lib.rs) ───────────────────────────────────────────────

/-- Result type of a mutating contract call: on success, the new storage and
the token transfers the call performed. -/
abbrev CallResult := Except ContractError (CampaignState × List Transfer)

/-- The `contribute` entry point (lib.rs lines 242-384). `now` is
`env.ledger().timestamp()`. The Rust early-return on the rate limit
(`if let Some(last_time) = ... { if now < last_time + COOLDOWN { return } }`)
is rendered as a single guard. The token transfer happens before the checked
additions in the source; since any later error reverts it, transfers are
reported only on success. -/
def contribute (now : Nat) (contributor : Nat) (amount : Int)
    (referral : Option Nat) (s : CampaignState) : CallResult :=
  if (match s.last_contribution_time contributor with
      | some last_time => decide (now < last_time + CONTRIBUTION_COOLDOWN)
      | none => false) then
    .error .RateLimitExceeded
  else if s.paused then
    .error .ContractPaused
  else if amount < s.min_contribution then
    .error (.Panic .belowMinimum)
  else if s.deadline < now then
    .error .CampaignEnded
  else
    match s.hard_cap with
    | none => .error (.Panic .missingHardCap)
    | some hard_cap =>
      if hard_cap ≤ s.total_raised then
        .error .HardCapExceeded
      else
        let headroom := hard_cap - s.total_raised
        let effective_amount := if amount ≤ headroom then amount else headroom
        match checked_add (s.contributions contributor) effective_amount with
        | none => .error .Overflow
        | some new_contribution =>
          match checked_add s.total_raised effective_amount with
          | none => .error .Overflow
          | some new_total =>
            let s1 : CampaignState :=
              { s with
                contributions := setF s.contributions contributor new_contribution
                total_raised := new_total
                contributors :=
                  if contributor ∈ s.contributors then s.contributors
                  else s.contributors ++ [contributor] }
            match referral with
            | some referrer =>
              if referrer ≠ contributor then
                match checked_add (s.referral_tally referrer) effective_amount with
                | none => .error .Overflow
                | some new_tally =>
                  .ok ({ s1 with
                         referral_tally := setF s.referral_tally referrer new_tally
                         last_contribution_time :=
                           setF s.last_contribution_time contributor (some now) },
                       [(contributor, contract_address, effective_amount)])
              else
                .ok ({ s1 with
                       last_contribution_time :=
                         setF s.last_contribution_time contributor (some now) },
                     [(contributor, contract_address, effective_amount)])
            | none =>
              .ok ({ s1 with
                     last_contribution_time :=
                       setF s.last_contribution_time contributor (some now) },
                   [(contributor, contract_address, effective_amount)])

/-- The `pledge` entry point (lib.rs lines 390-446). The two running-total
updates use Rust's unchecked `+` on `i128` in the source, modelled by
`wrap_add`. No pause check, no status check, no rate limit, no transfer. -/
def pledge (now : Nat) (pledger : Nat) (amount : Int)
    (s : CampaignState) : CallResult :=
  if amount < s.min_contribution then
    .error (.Panic .belowMinimum)
  else if s.deadline < now then
    .error .CampaignEnded
  else
    .ok ({ s with
           pledges := setF s.pledges pledger (wrap_add (s.pledges pledger) amount)
           total_pledged := wrap_add s.total_pledged amount
           pledgers :=
             if pledger ∈ s.pledgers then s.pledgers
             else s.pledgers ++ [pledger] }, [])

/-- The `collect_pledges` entry point (lib.rs lines 453-513). Sums with
unchecked `+` (`wrap_add`), transfers every positive pledge into the
contract, zeroes those pledges, folds `total_pledged` into `total_raised`
and resets `total_pledged`. Per-address contributions and the Contributors
list are not touched. -/
def collect_pledges (now : Nat) (s : CampaignState) : CallResult :=
  if s.status ≠ .Active then
    .error (.Panic .notActive)
  else if now ≤ s.deadline then
    .error .CampaignStillActive
  else if wrap_add s.total_raised s.total_pledged < s.goal then
    .error .GoalNotReached
  else
    .ok ({ s with
           pledges := fun a => if a ∈ s.pledgers ∧ 0 < s.pledges a then 0 else s.pledges a
           total_raised := wrap_add s.total_raised s.total_pledged
           total_pledged := 0 },
         s.pledgers.filterMap fun p =>
           if 0 < s.pledges p then some (p, contract_address, s.pledges p) else none)

/-- The `withdraw` entry point (lib.rs lines 520-590). Pause check first,
then status, deadline and goal; optional platform fee with checked multiply
and subtract (the division is by the literal `10_000`, so the source's
`checked_div` cannot fail and is plain truncating division here). -/
def withdraw (now : Nat) (s : CampaignState) : CallResult :=
  if s.paused then
    .error .ContractPaused
  else if s.status ≠ .Active then
    .error (.Panic .notActive)
  else if now ≤ s.deadline then
    .error .CampaignStillActive
  else if s.total_raised < s.goal then
    .error .GoalNotReached
  else
    match s.platform_config with
    | some config =>
      match checked_mul s.total_raised (config.fee_bps : Int) with
      | none => .error (.Panic .feeOverflow)
      | some product =>
        let fee := product.tdiv 10000
        match checked_sub s.total_raised fee with
        | none => .error (.Panic .payoutUnderflow)
        | some creator_payout =>
          .ok ({ s with total_raised := 0, status := .Successful },
               [(contract_address, config.address, fee),
                (contract_address, s.creator, creator_payout)])
    | none =>
      .ok ({ s with total_raised := 0, status := .Successful },
           [(contract_address, s.creator, s.total_raised)])

/-- The `refund` entry point (lib.rs lines 594-651): bulk refund sweep.
Transfers every positive contribution back, zeroes it, resets
`total_raised`, sets status `Refunded`. Contributor addresses stay in the
Contributors list. -/
def refund (now : Nat) (s : CampaignState) : CallResult :=
  if s.paused then
    .error .ContractPaused
  else if s.status ≠ .Active then
    .error (.Panic .notActive)
  else if now ≤ s.deadline then
    .error .CampaignStillActive
  else if s.goal ≤ s.total_raised then
    .error .GoalReached
  else
    .ok ({ s with
           contributions := fun a =>
             if a ∈ s.contributors ∧ 0 < s.contributions a then 0 else s.contributions a
           total_raised := 0
           status := .Refunded },
         s.contributors.filterMap fun c =>
           if 0 < s.contributions c then some (contract_address, c, s.contributions c) else none)

/-- The `cancel` entry point (lib.rs lines 655-693): same sweep as `refund`
but with no pause, deadline or goal gate, ending in status `Cancelled`. -/
def cancel (s : CampaignState) : CallResult :=
  if s.status ≠ .Active then
    .error (.Panic .notActive)
  else
    .ok ({ s with
           contributions := fun a =>
             if a ∈ s.contributors ∧ 0 < s.contributions a then 0 else s.contributions a
           total_raised := 0
           status := .Cancelled },
         s.contributors.filterMap fun c =>
           if 0 < s.contributions c then some (contract_address, c, s.contributions c) else none)

/-- The `set_paused` entry point (lib.rs lines 721-729), creator-only. -/
def set_paused (b : Bool) (s : CampaignState) : CallResult :=
  .ok ({ s with paused := b }, [])

/-- The `update_deadline` entry point (lib.rs lines 803-832). -/
def update_deadline (new_deadline : Nat) (s : CampaignState) : CallResult :=
  if s.status ≠ .Active then
    .error (.Panic .notActive)
  else if new_deadline ≤ s.deadline then
    .error (.Panic .notLaterDeadline)
  else
    .ok ({ s with deadline := new_deadline }, [])

/-- The `add_stretch_goal` entry point (lib.rs lines 883-902), creator-only
append rejecting `milestone <= goal`. -/
def add_stretch_goal (milestone : Int) (s : CampaignState) : CallResult :=
  if milestone ≤ s.goal then
    .error (.Panic .stretchTooSmall)
  else
    .ok ({ s with stretch_goals := s.stretch_goals ++ [milestone] }, [])

/-- The `add_roadmap_item` entry point (lib.rs lines 840-869); descriptions
are opaque tokens with `0` the empty string. -/
def add_roadmap_item (now date : Nat) (description : Nat)
    (s : CampaignState) : CallResult :=
  if date ≤ now then
    .error (.Panic .dateNotFuture)
  else if description = 0 then
    .error (.Panic .emptyDescription)
  else
    .ok ({ s with roadmap := s.roadmap ++ [(date, description)] }, [])

/-- The `add_reward_tier` entry point (lib.rs lines 905-935). -/
def add_reward_tier (caller : Nat) (name : Nat) (min_amount : Int)
    (s : CampaignState) : CallResult :=
  if s.status ≠ .Active then
    .error (.Panic .notActive)
  else if caller ≠ s.creator then
    .error (.Panic .notAuthorized)
  else if min_amount ≤ 0 then
    .error (.Panic .nonPositiveTier)
  else
    .ok ({ s with reward_tiers := s.reward_tiers ++ [(name, min_amount)] }, [])

/-- The `update_metadata` entry point (lib.rs lines 739-792). -/
def update_metadata (caller : Nat) (title? description? socials? : Option Nat)
    (s : CampaignState) : CallResult :=
  if s.status ≠ .Active then
    .error (.Panic .notActive)
  else if caller ≠ s.creator then
    .error (.Panic .notAuthorized)
  else
    .ok ({ s with
           title := match title? with | some t => some t | none => s.title
           description := match description? with | some d => some d | none => s.description
           socials := match socials? with | some so => some so | none => s.socials }, [])

/-- The `upgrade` entry point (lib.rs lines 706-711): reads the Admin key
with `unwrap` (the key is never written anywhere in the contract) and, when
it is present, replaces the WASM without touching storage. -/
def upgrade (s : CampaignState) : CallResult :=
  match s.admin with
  | none => .error (.Panic .missingAdmin)
  | some _ => .ok (s, [])

-- ── Views (from lib.rs) ────────────────────────────────────────────────────

/-- Scan of the stretch-goal list performed by `current_milestone`: the first
stored milestone with `total_raised < milestone`, else `0`. -/
def milestone_scan (total_raised : Int) : List Int → Int
  | [] => 0
  | milestone :: rest =>
    if total_raised < milestone then milestone else milestone_scan total_raised rest

/-- The `current_milestone` view (lib.rs lines 988-1008). -/
def current_milestone (s : CampaignState) : Int :=
  milestone_scan s.total_raised s.stretch_goals

/-- Largest-contribution fold of `get_stats` (lib.rs lines 1105-1115); note
the source reads the `Contribution` keys from instance storage. -/
def largest_loop (f : Nat → Int) : List Nat → Int → Int
  | [], largest => largest
  | c :: rest, largest =>
    largest_loop f rest (if largest < f c then f c else largest)

/-- The `get_stats` view (lib.rs lines 1076-1127). It reads the Contributors
key from instance storage (everything else in the contract uses the
persistent Contributors key) and `unwrap`s it, aborting when absent; the
`raw as u32` cast wraps modulo `2 ^ 32`. -/
def get_stats (s : CampaignState) : Except ContractError CampaignStats :=
  match s.contributors_instance with
  | none => .error (.Panic .missingContributorsInstance)
  | some contributors =>
    let progress_bps : Nat :=
      if 0 < s.goal then
        let raw := (wrap_mul s.total_raised 10000).tdiv s.goal
        if 10000 < raw then 10000 else (raw % 2 ^ 32).toNat
      else 0
    let contributor_count := contributors.length
    if contributor_count = 0 then
      .ok { total_raised := s.total_raised, goal := s.goal,
            progress_bps := progress_bps, contributor_count := contributor_count,
            average_contribution := 0, largest_contribution := 0 }
    else
      .ok { total_raised := s.total_raised, goal := s.goal,
            progress_bps := progress_bps, contributor_count := contributor_count,
            average_contribution := s.total_raised.tdiv contributor_count,
            largest_contribution := largest_loop s.contributions_instance contributors 0 }

/-- The `contributor_count` view (lib.rs lines 1171-1178), reading the
persistent Contributors key. -/
def contributor_count (s : CampaignState) : Nat :=
  s.contributors.length

-- ── The step relation over all mutating entry points ───────────────────────

/-- One mutating entry point of the contract together with its arguments.
`initOp` is the constructor `initialize`; on an already-initialized storage
(which every `CampaignState` is) it fails its Creator-key existence check. -/
inductive Op
  | initOp
  | contributeOp (contributor : Nat) (amount : Int) (referral : Option Nat)
  | pledgeOp (pledger : Nat) (amount : Int)
  | collectPledgesOp
  | withdrawOp
  | refundOp
  | cancelOp
  | setPausedOp (b : Bool)
  | updateDeadlineOp (new_deadline : Nat)
  | addStretchGoalOp (milestone : Int)
  | addRoadmapItemOp (date : Nat) (description : Nat)
  | addRewardTierOp (caller : Nat) (name : Nat) (min_amount : Int)
  | updateMetadataOp (caller : Nat) (title? description? socials? : Option Nat)
  | upgradeOp
deriving DecidableEq

/-- Apply one entry point at ledger timestamp `now`. -/
def apply (now : Nat) (op : Op) (s : CampaignState) : CallResult :=
  match op with
  | .initOp => .error .AlreadyInit
  | .contributeOp c amount referral => contribute now c amount referral s
  | .pledgeOp p amount => pledge now p amount s
  | .collectPledgesOp => collect_pledges now s
  | .withdrawOp => withdraw now s
  | .refundOp => refund now s
  | .cancelOp => cancel s
  | .setPausedOp b => set_paused b s
  | .updateDeadlineOp nd => update_deadline nd s
  | .addStretchGoalOp m => add_stretch_goal m s
  | .addRoadmapItemOp d desc => add_roadmap_item now d desc s
  | .addRewardTierOp caller name ma => add_reward_tier caller name ma s
  | .updateMetadataOp caller t d so => update_metadata caller t d so s
  | .upgradeOp => upgrade s

/-- States reachable from `s0` by sequences of successful calls. -/
inductive ReachableFrom (s0 : CampaignState) : CampaignState → Prop
  | refl : ReachableFrom s0 s0
  | step {s : CampaignState} {now : Nat} {op : Op} {p : CampaignState × List Transfer} :
      ReachableFrom s0 s → apply now op s = .ok p → ReachableFrom s0 p.1

/-- States reachable from `s0` by successful calls none of which is
`collect_pledges`. -/
inductive ReachableNoCollect (s0 : CampaignState) : CampaignState → Prop
  | refl : ReachableNoCollect s0 s0
  | step {s : CampaignState} {now : Nat} {op : Op} {p : CampaignState × List Transfer} :
      ReachableNoCollect s0 s → op ≠ .collectPledgesOp → apply now op s = .ok p →
      ReachableNoCollect s0 p.1

/-- Invariance by induction over a reachability derivation. -/
theorem reachable_invariant {s0 : CampaignState} {P : CampaignState → Prop}
    (h0 : P s0)
    (hstep : ∀ now op s p, P s → apply now op s = .ok p → P p.1) :
    ∀ s, ReachableFrom s0 s → P s := by
  intro s h
  induction h with
  | refl => exact h0
  | step hr hok ih => exact hstep _ _ _ _ ih hok

/-- Invariance by induction over a collect-free reachability derivation. -/
theorem reachable_nc_invariant {s0 : CampaignState} {P : CampaignState → Prop}
    (h0 : P s0)
    (hstep : ∀ now op s p, op ≠ .collectPledgesOp → P s → apply now op s = .ok p → P p.1) :
    ∀ s, ReachableNoCollect s0 s → P s := by
  intro s h
  induction h with
  | refl => exact h0
  | step hr hne hok ih => exact hstep _ _ _ _ hne ih hok

-- ── Extraction helpers for concrete runs ───────────────────────────────────

/-- State component of a successful call result, with a fallback for the
error case. -/
def ok_state (r : CallResult) (dflt : CampaignState) : CampaignState :=
  match r with
  | .ok p => p.1
  | .error _ => dflt

/-- Transfer trace of a successful call result. -/
def ok_transfers (r : CallResult) : List Transfer :=
  match r with
  | .ok p => p.2
  | .error _ => []

/-- Whether a call succeeded. -/
def call_ok (r : CallResult) : Bool :=
  match r with
  | .ok _ => true
  | .error _ => false

/-- Sum of the recorded contributions of the addresses in the persistent
Contributors list. -/
def contrib_sum (s : CampaignState) : Int :=
  (s.contributors.map s.contributions).sum

-- ── Preservation lemmas ────────────────────────────────────────────────────

/-- No entry point ever writes the HardCap, instance-storage Contributors,
MinContribution, instance-storage Contribution, Creator or Goal keys, so a
successful call leaves all of them unchanged. -/
theorem apply_ok_fixed_fields (now : Nat) (op : Op) (s : CampaignState)
    (p : CampaignState × List Transfer) (h : apply now op s = .ok p) :
    p.1.hard_cap = s.hard_cap ∧
    p.1.contributors_instance = s.contributors_instance ∧
    p.1.min_contribution = s.min_contribution ∧
    p.1.contributions_instance = s.contributions_instance ∧
    p.1.creator = s.creator ∧
    p.1.goal = s.goal := by
  cases op <;>
    simp only [apply, contribute, pledge, collect_pledges, withdraw, refund, cancel,
      set_paused, update_deadline, add_stretch_goal, add_roadmap_item, add_reward_tier,
      update_metadata, upgrade] at h <;>
    (repeat' split at h) <;>
    cases h <;>
    exact ⟨rfl, rfl, rfl, rfl, rfl, rfl⟩

/-- A successful call either leaves the status unchanged or moves an Active
campaign to one of the three terminal statuses. -/
theorem apply_ok_status_cases (now : Nat) (op : Op) (s : CampaignState)
    (p : CampaignState × List Transfer) (h : apply now op s = .ok p) :
    p.1.status = s.status ∨
    (s.status = .Active ∧
      (p.1.status = .Successful ∨ p.1.status = .Refunded ∨ p.1.status = .Cancelled)) := by
  cases op <;>
    simp only [apply, contribute, pledge, collect_pledges, withdraw, refund, cancel,
      set_paused, update_deadline, add_stretch_goal, add_roadmap_item, add_reward_tier,
      update_metadata, upgrade] at h <;>
    (repeat' split at h) <;>
    cases h <;>
    simp_all

-- ── Arithmetic helper lemmas ───────────────────────────────────────────────

theorem checked_add_some {a b c : Int} (h : checked_add a b = some c) :
    c = a + b ∧ inI128 (a + b) := by
  unfold checked_add at h
  split at h
  · exact ⟨(Option.some.inj h).symm, by assumption⟩
  · exact nomatch h

theorem checked_mul_some {a b c : Int} (h : checked_mul a b = some c) :
    c = a * b ∧ inI128 (a * b) := by
  unfold checked_mul at h
  split at h
  · exact ⟨(Option.some.inj h).symm, by assumption⟩
  · exact nomatch h

theorem checked_sub_some {a b c : Int} (h : checked_sub a b = some c) :
    c = a - b ∧ inI128 (a - b) := by
  unfold checked_sub at h
  split at h
  · exact ⟨(Option.some.inj h).symm, by assumption⟩
  · exact nomatch h

/-- Within the `i128` range the wrapping addition is true addition. -/
theorem wrap_add_eq {a b : Int} (h : inI128 (a + b)) : wrap_add a b = a + b := by
  obtain ⟨h1, h2⟩ := h
  unfold i128Min at h1
  unfold i128Max at h2
  unfold wrap_add wrap_i128
  rw [Int.emod_eq_of_lt (by omega) (by omega)]
  omega

-- ── List helper lemmas ─────────────────────────────────────────────────────

theorem sum_map_setF_not_mem {f : Nat → Int} {l : List Nat} {c : Nat} {v : Int}
    (h : c ∉ l) : (l.map (setF f c v)).sum = (l.map f).sum := by
  induction l with
  | nil => rfl
  | cons a l ih =>
    have hac : a ≠ c := fun he => h (he ▸ List.mem_cons_self a l)
    have hcl : c ∉ l := fun hm => h (List.mem_cons_of_mem a hm)
    simp [setF, hac, ih hcl]

theorem sum_map_setF_mem {f : Nat → Int} {l : List Nat} {c : Nat} {v : Int}
    (hmem : c ∈ l) (hnd : l.Nodup) :
    (l.map (setF f c v)).sum = (l.map f).sum - f c + v := by
  induction l with
  | nil => exact absurd hmem (List.not_mem_nil c)
  | cons a l ih =>
    rcases List.mem_cons.mp hmem with heq | hmem'
    · have hcl : c ∉ l := by
        rw [heq]
        exact (List.nodup_cons.mp hnd).1
      rw [← heq]
      simp [setF, sum_map_setF_not_mem hcl]
      try ring
    · have hac : a ≠ c := by
        rintro rfl
        exact (List.nodup_cons.mp hnd).1 hmem'
      have ih' := ih hmem' (List.nodup_cons.mp hnd).2
      simp [setF, hac, ih']
      try ring

theorem nodup_append_single {l : List Nat} {c : Nat} (hnd : l.Nodup) (hc : c ∉ l) :
    (l ++ [c]).Nodup := by
  induction l with
  | nil => simp
  | cons a l ih =>
    have h1 : a ∉ l := (List.nodup_cons.mp hnd).1
    have h2 : c ∉ l := fun hm => hc (List.mem_cons_of_mem a hm)
    have h3 : a ≠ c := fun he => hc (he ▸ List.mem_cons_self a l)
    simp only [List.cons_append, List.nodup_cons]
    exact ⟨by simp [h1, h3], ih (List.nodup_cons.mp hnd).2 h2⟩

-- ── Shape lemmas for successful calls ──────────────────────────────────────

/-- Full characterization of a successful `contribute` call: the gates it
passed and the state and transfer trace it produces. `eff` is the clamped
effective amount. -/
theorem contribute_ok_shape {now c : Nat} {amount : Int} {ref : Option Nat}
    {s : CampaignState} {p : CampaignState × List Transfer}
    (h : contribute now c amount ref s = .ok p) :
    ∃ hc,
      s.hard_cap = some hc ∧
      s.paused = false ∧
      s.min_contribution ≤ amount ∧
      now ≤ s.deadline ∧
      s.total_raised < hc ∧
      inI128 (s.contributions c + min amount (hc - s.total_raised)) ∧
      inI128 (s.total_raised + min amount (hc - s.total_raised)) ∧
      p.1.contributions =
        setF s.contributions c (s.contributions c + min amount (hc - s.total_raised)) ∧
      p.1.total_raised = s.total_raised + min amount (hc - s.total_raised) ∧
      p.1.contributors =
        (if c ∈ s.contributors then s.contributors else s.contributors ++ [c]) ∧
      p.1.status = s.status ∧
      p.1.total_pledged = s.total_pledged ∧
      p.1.pledges = s.pledges ∧
      p.1.pledgers = s.pledgers ∧
      p.1.paused = s.paused ∧
      p.1.deadline = s.deadline ∧
      p.1.stretch_goals = s.stretch_goals ∧
      p.2 = [(c, contract_address, min amount (hc - s.total_raised))] := by
  simp only [contribute] at h
  split at h
  · exact nomatch h
  · split at h
    · exact nomatch h
    · split at h
      · exact nomatch h
      · split at h
        · exact nomatch h
        · rename_i hrate hpaused hmin hdl
          split at h
          · exact nomatch h
          · rename_i hc hcap
            split at h
            · exact nomatch h
            · rename_i hnotex
              have heff :
                  (if amount ≤ hc - s.total_raised then amount
                   else hc - s.total_raised) = min amount (hc - s.total_raised) := by
                split
                next hle => exact (min_eq_left hle).symm
                next hle => exact (min_eq_right (le_of_not_le hle)).symm
              rw [heff] at h
              refine ⟨hc, hcap, by simpa using hpaused, by omega, by omega, by omega, ?_⟩
              split at h
              · exact nomatch h
              · rename_i nc hca
                split at h
                · exact nomatch h
                · rename_i nt hca2
                  obtain ⟨hnc, hnc_rng⟩ := checked_add_some hca
                  obtain ⟨hnt, hnt_rng⟩ := checked_add_some hca2
                  subst hnc
                  subst hnt
                  split at h
                  · rename_i r href
                    split at h
                    · rename_i hrc
                      split at h
                      · exact nomatch h
                      · rename_i ntal hca3
                        cases h
                        exact ⟨hnc_rng, hnt_rng, rfl, rfl, rfl, rfl, rfl, rfl, rfl,
                          rfl, rfl, rfl, rfl⟩
                    · cases h
                      exact ⟨hnc_rng, hnt_rng, rfl, rfl, rfl, rfl, rfl, rfl, rfl,
                        rfl, rfl, rfl, rfl⟩
                  · cases h
                    exact ⟨hnc_rng, hnt_rng, rfl, rfl, rfl, rfl, rfl, rfl, rfl,
                      rfl, rfl, rfl, rfl⟩

/-- Characterization of a successful `pledge` call. -/
theorem pledge_ok_shape {now pl : Nat} {amount : Int} {s : CampaignState}
    {p : CampaignState × List Transfer} (h : pledge now pl amount s = .ok p) :
    s.min_contribution ≤ amount ∧ now ≤ s.deadline ∧
    p.1.pledges = setF s.pledges pl (wrap_add (s.pledges pl) amount) ∧
    p.1.total_pledged = wrap_add s.total_pledged amount ∧
    p.1.pledgers = (if pl ∈ s.pledgers then s.pledgers else s.pledgers ++ [pl]) ∧
    p.1.contributions = s.contributions ∧
    p.1.contributors = s.contributors ∧
    p.1.total_raised = s.total_raised ∧
    p.1.status = s.status ∧
    p.1.paused = s.paused ∧
    p.2 = [] := by
  simp only [pledge] at h
  split at h
  · exact nomatch h
  · split at h
    · exact nomatch h
    · rename_i hmin hdl
      cases h
      exact ⟨by omega, by omega, rfl, rfl, rfl, rfl, rfl, rfl, rfl, rfl, rfl⟩

/-- Characterization of a successful `collect_pledges` call. -/
theorem collect_pledges_ok_shape {now : Nat} {s : CampaignState}
    {p : CampaignState × List Transfer} (h : collect_pledges now s = .ok p) :
    s.status = .Active ∧ s.deadline < now ∧
    s.goal ≤ wrap_add s.total_raised s.total_pledged ∧
    p.1.total_raised = wrap_add s.total_raised s.total_pledged ∧
    p.1.total_pledged = 0 ∧
    p.1.contributions = s.contributions ∧
    p.1.contributors = s.contributors ∧
    p.1.status = s.status ∧
    p.1.paused = s.paused := by
  simp only [collect_pledges] at h
  split at h
  · exact nomatch h
  · split at h
    · exact nomatch h
    · split at h
      · exact nomatch h
      · rename_i hst hdl hgoal
        cases h
        exact ⟨not_not.mp hst, by omega, by omega, rfl, rfl, rfl, rfl, rfl, rfl⟩

/-- Characterization of a successful `withdraw` call: the gates it passed,
the state it leaves, and the exact transfers it performs. -/
theorem withdraw_ok_shape {now : Nat} {s : CampaignState}
    {p : CampaignState × List Transfer} (h : withdraw now s = .ok p) :
    s.paused = false ∧ s.status = .Active ∧ s.deadline < now ∧
    s.goal ≤ s.total_raised ∧
    p.1.status = .Successful ∧ p.1.total_raised = 0 ∧
    p.1.paused = s.paused ∧ p.1.deadline = s.deadline ∧
    p.1.contributions = s.contributions ∧ p.1.contributors = s.contributors ∧
    p.1.total_pledged = s.total_pledged ∧
    p.2 = (match s.platform_config with
           | some config =>
             [(contract_address, config.address,
                (s.total_raised * (config.fee_bps : Int)).tdiv 10000),
              (contract_address, s.creator,
                s.total_raised - (s.total_raised * (config.fee_bps : Int)).tdiv 10000)]
           | none => [(contract_address, s.creator, s.total_raised)]) := by
  simp only [withdraw] at h
  split at h
  · exact nomatch h
  · split at h
    · exact nomatch h
    · split at h
      · exact nomatch h
      · split at h
        · exact nomatch h
        · rename_i hpaused hst hdl hgoal
          split at h
          · rename_i config hpc
            split at h
            · exact nomatch h
            · rename_i product hmul
              split at h
              · exact nomatch h
              · rename_i payout hsub
                obtain ⟨hprod, _⟩ := checked_mul_some hmul
                obtain ⟨hpay, _⟩ := checked_sub_some hsub
                subst hprod
                subst hpay
                cases h
                exact ⟨by simpa using hpaused, not_not.mp hst, by omega, by omega,
                  rfl, rfl, rfl, rfl, rfl, rfl, rfl, by rw [hpc]⟩
          · rename_i hpc
            cases h
            exact ⟨by simpa using hpaused, not_not.mp hst, by omega, by omega,
              rfl, rfl, rfl, rfl, rfl, rfl, rfl, by rw [hpc]⟩

/-- Characterization of a successful `refund` call. -/
theorem refund_ok_shape {now : Nat} {s : CampaignState}
    {p : CampaignState × List Transfer} (h : refund now s = .ok p) :
    s.paused = false ∧ s.status = .Active ∧ s.deadline < now ∧
    s.total_raised < s.goal ∧
    p.1.status = .Refunded ∧ p.1.total_raised = 0 ∧
    p.1.paused = s.paused ∧
    p.1.contributors = s.contributors ∧
    p.1.contributions = (fun a =>
      if a ∈ s.contributors ∧ 0 < s.contributions a then 0 else s.contributions a) ∧
    p.2 = s.contributors.filterMap (fun c =>
      if 0 < s.contributions c then some (contract_address, c, s.contributions c)
      else none) := by
  simp only [refund] at h
  split at h
  · exact nomatch h
  · split at h
    · exact nomatch h
    · split at h
      · exact nomatch h
      · split at h
        · exact nomatch h
        · rename_i hpaused hst hdl hgoal
          cases h
          exact ⟨by simpa using hpaused, not_not.mp hst, by omega, by omega,
            rfl, rfl, rfl, rfl, rfl, rfl⟩

/-- Characterization of a successful `cancel` call. -/
theorem cancel_ok_shape {s : CampaignState}
    {p : CampaignState × List Transfer} (h : cancel s = .ok p) :
    s.status = .Active ∧
    p.1.status = .Cancelled ∧ p.1.total_raised = 0 ∧
    p.1.paused = s.paused ∧
    p.1.contributors = s.contributors ∧
    p.1.contributions = (fun a =>
      if a ∈ s.contributors ∧ 0 < s.contributions a then 0 else s.contributions a) ∧
    p.2 = s.contributors.filterMap (fun c =>
      if 0 < s.contributions c then some (contract_address, c, s.contributions c)
      else none) := by
  simp only [cancel] at h
  split at h
  · exact nomatch h
  · rename_i hst
    cases h
    exact ⟨not_not.mp hst, rfl, rfl, rfl, rfl, rfl, rfl⟩

/-- The remaining entry points (constructor, pause switch, deadline update,
stretch goal / roadmap / reward tier appends, metadata update, upgrade)
touch neither the contribution nor the pledge accounting nor the status. -/
theorem apply_ok_frame {now : Nat} {op : Op} {s : CampaignState}
    {p : CampaignState × List Transfer} (h : apply now op s = .ok p)
    (hop : match op with
           | .contributeOp .. => False
           | .pledgeOp .. => False
           | .collectPledgesOp => False
           | .withdrawOp => False
           | .refundOp => False
           | .cancelOp => False
           | _ => True) :
    p.1.contributions = s.contributions ∧ p.1.contributors = s.contributors ∧
    p.1.total_raised = s.total_raised ∧ p.1.total_pledged = s.total_pledged ∧
    p.1.pledges = s.pledges ∧ p.1.pledgers = s.pledgers ∧
    p.1.status = s.status ∧ p.1.min_contribution = s.min_contribution := by
  cases op <;>
    simp only [apply, set_paused, update_deadline, add_stretch_goal, add_roadmap_item,
      add_reward_tier, update_metadata, upgrade] at h <;>
    first
      | exact hop.elim
      | ((repeat' split at h) <;> cases h <;>
          exact ⟨rfl, rfl, rfl, rfl, rfl, rfl, rfl, rfl⟩)

-- ── Claim C2 ───────────────────────────────────────────────────────────────

/-- C2 counterexample: the claim says every `contribute` call on a campaign
created through the constructor aborts; but a call made after the deadline
(fresh campaign with deadline 10, call at timestamp 11) fails with the
structured error `CampaignEnded` — returned by a gate that runs before the
absent HardCap key is ever read — which is not an abort. -/
theorem C2_counterexample :
    contribute 11 3 1 none (post_init 1 2 5 10 1) = .error .CampaignEnded ∧
    ContractError.CampaignEnded.isPanic = false :=
  ⟨rfl, rfl⟩

/-- C2 (amended): after a successful run of the constructor, no `contribute`
call ever succeeds, whatever its arguments and timestamp: the constructor
never writes the HardCap key, no entry point ever writes it, and a
successful `contribute` requires it to be present; calls fail either with a
structured gate error or by aborting on the missing key. -/
theorem C2_no_contribution_ever_succeeds
    (creator token : Nat) (goal : Int) (deadline : Nat) (min_contribution : Int)
    (s : CampaignState)
    (hreach : ReachableFrom (post_init creator token goal deadline min_contribution) s)
    (now c : Nat) (amount : Int) (ref : Option Nat)
    (p : CampaignState × List Transfer) :
    apply now (.contributeOp c amount ref) s ≠ .ok p := by
  intro h
  have hnone : s.hard_cap = none :=
    reachable_invariant (P := fun t => t.hard_cap = none) rfl
      (fun now' op' s' p' hP hok =>
        ((apply_ok_fixed_fields now' op' s' p' hok).1).trans hP)
      s hreach
  simp only [apply] at h
  obtain ⟨hc, hcap, -⟩ := contribute_ok_shape h
  rw [hnone] at hcap
  exact nomatch hcap

/-- Witness for C2: the amended theorem applied to the freshly constructed
campaign itself and one concrete call. -/
theorem C2_witness :
    apply 0 (.contributeOp 3 1 none) (post_init 1 2 5 10 1) ≠
      .ok (post_init 1 2 5 10 1, []) :=
  C2_no_contribution_ever_succeeds 1 2 5 10 1 _ ReachableFrom.refl 0 3 1 none _

-- ── Claim C7 ───────────────────────────────────────────────────────────────

/-- C7 (code bug): in every state reachable from a freshly constructed
campaign — with or without the spec-intended HardCap write — `get_stats`
aborts on its `unwrap` of the Contributors key in instance storage, because
that key is never written (the contributor list lives in persistent
storage); it never returns a `CampaignStats` value as the claim says. -/
theorem C7_get_stats_always_aborts (s0 s : CampaignState) (hinit : InitialState s0)
    (hreach : ReachableFrom s0 s) :
    get_stats s = .error (.Panic .missingContributorsInstance) := by
  obtain ⟨cr, tk, g, d, m, hc0, rfl⟩ := hinit
  have hnone : s.contributors_instance = none :=
    reachable_invariant (P := fun t => t.contributors_instance = none) rfl
      (fun now' op' s' p' hP hok =>
        ((apply_ok_fixed_fields now' op' s' p' hok).2.1).trans hP)
      s hreach
  simp [get_stats, hnone]

/-- Witness for C7: `get_stats` aborts already on the freshly constructed
campaign. -/
theorem C7_witness :
    get_stats (post_init 1 2 5 10 1) = .error (.Panic .missingContributorsInstance) :=
  C7_get_stats_always_aborts _ _ ⟨1, 2, 5, 10, 1, none, rfl⟩ ReachableFrom.refl

-- ── Claim C6 ───────────────────────────────────────────────────────────────

/-- State after pledger 7 pledges `i128::MAX` on a fresh campaign with
goal 1000, deadline 10, minimum contribution 1. -/
def c6_s1 : CampaignState :=
  ok_state (apply 0 (.pledgeOp 7 i128Max) (post_init 1 2 1000 10 1))
    (post_init 1 2 1000 10 1)

/-- C6 (code bug): `pledge` updates its running totals with unchecked `+`,
not `checked_add`. Pledging `i128::MAX` and then `1` succeeds twice; the
second call does not fail with the structured `Overflow` error the claim
requires, and the stored pledge and `total_pledged` wrap to the negative
`i128::MIN` — a corrupted total. -/
theorem C6_pledge_overflow_wraps :
    call_ok (apply 0 (.pledgeOp 7 i128Max) (post_init 1 2 1000 10 1)) = true ∧
    c6_s1.pledges 7 = i128Max ∧
    c6_s1.total_pledged = i128Max ∧
    call_ok (apply 0 (.pledgeOp 7 1) c6_s1) = true ∧
    apply 0 (.pledgeOp 7 1) c6_s1 ≠ .error .Overflow ∧
    (ok_state (apply 0 (.pledgeOp 7 1) c6_s1) c6_s1).pledges 7 = i128Min ∧
    (ok_state (apply 0 (.pledgeOp 7 1) c6_s1) c6_s1).total_pledged = i128Min ∧
    i128Min < 0 := by
  refine ⟨rfl, by decide, by decide, rfl, ?_, by decide, by decide, by decide⟩
  intro h
  have hok : call_ok (apply 0 (.pledgeOp 7 1) c6_s1) = true := rfl
  rw [h] at hok
  exact Bool.noConfusion hok

-- ── Claim C4 ───────────────────────────────────────────────────────────────

/-- C4: every successful `withdraw` call happened with status Active, the
deadline passed, the goal met and the contract not paused; when a
PlatformConfig is stored it transfers `fee = total * fee_bps / 10000`
(truncating integer division) to the platform address and `total - fee` to
the creator, otherwise the whole total to the creator; afterwards
`total_raised = 0` and `status = Successful`. -/
theorem C4_withdraw_post (now : Nat) (s s' : CampaignState) (ts : List Transfer)
    (h : withdraw now s = .ok (s', ts)) :
    s.status = .Active ∧ s.deadline < now ∧ s.goal ≤ s.total_raised ∧
    s.paused = false ∧
    s'.total_raised = 0 ∧ s'.status = .Successful ∧
    ts = (match s.platform_config with
          | some config =>
            [(contract_address, config.address,
               (s.total_raised * (config.fee_bps : Int)).tdiv 10000),
             (contract_address, s.creator,
               s.total_raised - (s.total_raised * (config.fee_bps : Int)).tdiv 10000)]
          | none => [(contract_address, s.creator, s.total_raised)]) := by
  obtain ⟨hp, hst, hdl, hg, hsucc, htr0, -, -, -, -, -, hts⟩ := withdraw_ok_shape h
  exact ⟨hst, hdl, hg, hp, htr0, hsucc, hts⟩

/-- Concrete campaign for the C4 witness: goal 50, deadline 10, total
raised 100, platform fee 250 bps to address 9. -/
def c4_state : CampaignState :=
  { post_init 1 2 50 10 1 with total_raised := 100, platform_config := some ⟨9, 250⟩ }

/-- Witness for C4: at timestamp 11 the withdrawal succeeds, pays fee 2 to
the platform and 98 to the creator, and leaves `total_raised = 0`,
`status = Successful`. -/
theorem C4_witness :
    (ok_state (withdraw 11 c4_state) c4_state).status = .Successful ∧
    (ok_state (withdraw 11 c4_state) c4_state).total_raised = 0 ∧
    ok_transfers (withdraw 11 c4_state) =
      [(contract_address, 9, 2), (contract_address, 1, 98)] := by
  have h : withdraw 11 c4_state =
      .ok (ok_state (withdraw 11 c4_state) c4_state,
           ok_transfers (withdraw 11 c4_state)) := rfl
  obtain ⟨-, -, -, -, htr0, hsucc, hts⟩ := C4_withdraw_post 11 c4_state _ _ h
  refine ⟨hsucc, htr0, ?_⟩
  rw [hts]
  rfl

-- ── Claim C5 ───────────────────────────────────────────────────────────────

/-- C5: terminal statuses are final — no successful call changes the status
of a campaign whose status is Successful, Refunded or Cancelled — and
settlement is idempotent: after a successful `withdraw` (resp. bulk
`refund`), a second `withdraw` (resp. `refund`) at any timestamp fails with
the `campaign is not active` abort; a failed call reverts, changing no
state. -/
theorem C5_terminal_final_and_idempotent :
    (∀ s now op p,
      (s.status = .Successful ∨ s.status = .Refunded ∨ s.status = .Cancelled) →
      apply now op s = .ok p → p.1.status = s.status) ∧
    (∀ s now p now', withdraw now s = .ok p →
      withdraw now' p.1 = .error (.Panic .notActive)) ∧
    (∀ s now p now', refund now s = .ok p →
      refund now' p.1 = .error (.Panic .notActive)) := by
  refine ⟨?_, ?_, ?_⟩
  · intro s now op p hterm hok
    rcases apply_ok_status_cases now op s p hok with he | ⟨ha, -⟩
    · exact he
    · rcases hterm with h | h | h <;> rw [h] at ha <;> exact nomatch ha
  · intro s now p now' hok
    obtain ⟨hp, -, -, -, hsucc, -, hpp, -, -, -, -, -⟩ := withdraw_ok_shape hok
    simp [withdraw, hpp, hp, hsucc]
  · intro s now p now' hok
    obtain ⟨hp, -, -, -, href, -, hpp, -, -, -⟩ := refund_ok_shape hok
    simp [refund, hpp, hp, href]

/-- Concrete campaign for the C5 witness: goal 50, deadline 10, total
raised 100, no platform config. -/
def c5_state : CampaignState := { post_init 1 2 50 10 1 with total_raised := 100 }

/-- Witness for C5: a concrete first `withdraw` succeeds and the second one
fails with the `campaign is not active` abort. -/
theorem C5_witness :
    withdraw 12 (ok_state (withdraw 11 c5_state) c5_state) =
      .error (.Panic .notActive) :=
  C5_terminal_final_and_idempotent.2.1 c5_state 11
    (ok_state (withdraw 11 c5_state) c5_state, ok_transfers (withdraw 11 c5_state))
    12 rfl

-- ── Claim C3 ───────────────────────────────────────────────────────────────

/-- C3: in a state whose HardCap key is set, when the rate-limit, pause,
minimum-amount and deadline gates all pass, `contribute` fails with
`HardCapExceeded` if `total_raised` is at or above the cap; otherwise a
successful call transfers exactly `min (amount, hard_cap - total_raised)`
and records the same amount in the contributor's balance and in
`total_raised` — never more than the headroom. -/
theorem C3_hard_cap_clamp (s : CampaignState) (now c : Nat) (amount hc : Int)
    (hcap : s.hard_cap = some hc)
    (hrate : ∀ last, s.last_contribution_time c = some last →
      last + CONTRIBUTION_COOLDOWN ≤ now)
    (hpaused : s.paused = false)
    (hmin : s.min_contribution ≤ amount)
    (hdl : now ≤ s.deadline) :
    (hc ≤ s.total_raised →
      contribute now c amount none s = .error .HardCapExceeded) ∧
    (s.total_raised < hc →
      ∀ s' ts, contribute now c amount none s = .ok (s', ts) →
        ts = [(c, contract_address, min amount (hc - s.total_raised))] ∧
        s'.total_raised = s.total_raised + min amount (hc - s.total_raised) ∧
        s'.contributions c =
          s.contributions c + min amount (hc - s.total_raised)) := by
  constructor
  · intro hex
    have hrateb : (match s.last_contribution_time c with
        | some last_time => decide (now < last_time + CONTRIBUTION_COOLDOWN)
        | none => false) = false := by
      rcases hl : s.last_contribution_time c with _ | last
      · rfl
      · simpa using Nat.not_lt.mpr (hrate last hl)
    simp [contribute, hrateb, hpaused, not_lt.mpr hmin, Nat.not_lt.mpr hdl, hcap, hex]
  · intro hlt s' ts hok
    obtain ⟨hc', hcap', -, -, -, -, -, -, hcontrib, htot, -, -, -, -, -, -, -, -, hts⟩ :=
      contribute_ok_shape hok
    rw [hcap] at hcap'
    have he : hc = hc' := Option.some.inj hcap'
    subst he
    refine ⟨hts, htot, ?_⟩
    rw [show s'.contributions = ((s', ts).1).contributions from rfl, hcontrib]
    simp [setF]

/-- Concrete state for the C3 witness: fresh campaign with goal 100,
deadline 10, minimum 1, HardCap key holding 10 and `total_raised = 6`, so
the headroom is 4. -/
def c3_state : CampaignState :=
  { post_init 1 2 100 10 1 with hard_cap := some 10, total_raised := 6 }

/-- Witness for C3: contributing 7 with headroom 4 transfers and records
exactly `min 7 4 = 4`. -/
theorem C3_witness :
    ok_transfers (contribute 0 3 7 none c3_state) =
      [(3, contract_address, min 7 (10 - 6))] ∧
    (ok_state (contribute 0 3 7 none c3_state) c3_state).total_raised =
      6 + min 7 (10 - 6) ∧
    (ok_state (contribute 0 3 7 none c3_state) c3_state).contributions 3 =
      0 + min 7 (10 - 6) := by
  have h : contribute 0 3 7 none c3_state =
      .ok (ok_state (contribute 0 3 7 none c3_state) c3_state,
           ok_transfers (contribute 0 3 7 none c3_state)) := rfl
  exact (C3_hard_cap_clamp c3_state 0 3 7 10 rfl (fun last hl => nomatch hl) rfl
    (by decide) (by decide)).2 (by decide) _ _ h

-- ── Claim C10 ──────────────────────────────────────────────────────────────

/-- C10: `pledge` ignores the pause switch. In any paused state, a pledge
meeting the minimum and the deadline succeeds (within the `i128` range) and
increases both the pledger's recorded pledge and `total_pledged`, while
`contribute` (once its rate-limit gate passes), `withdraw` and `refund` all
reject the same state with `ContractPaused`. -/
theorem C10_pledge_ignores_pause (s : CampaignState) (now pl : Nat) (amount : Int)
    (hpaused : s.paused = true)
    (hmin : s.min_contribution ≤ amount)
    (hdl : now ≤ s.deadline)
    (hpos : 0 < amount)
    (hr1 : inI128 (s.pledges pl + amount))
    (hr2 : inI128 (s.total_pledged + amount)) :
    call_ok (pledge now pl amount s) = true ∧
    (ok_state (pledge now pl amount s) s).pledges pl = s.pledges pl + amount ∧
    (ok_state (pledge now pl amount s) s).total_pledged =
      s.total_pledged + amount ∧
    s.pledges pl < (ok_state (pledge now pl amount s) s).pledges pl ∧
    s.total_pledged < (ok_state (pledge now pl amount s) s).total_pledged ∧
    (∀ now' c amount' ref,
      (match s.last_contribution_time c with
       | some last_time => last_time + CONTRIBUTION_COOLDOWN ≤ now'
       | none => True) →
      contribute now' c amount' ref s = .error .ContractPaused) ∧
    (∀ now', withdraw now' s = .error .ContractPaused) ∧
    (∀ now', refund now' s = .error .ContractPaused) := by
  have hplok : pledge now pl amount s =
      .ok ({ s with
             pledges := setF s.pledges pl (wrap_add (s.pledges pl) amount)
             total_pledged := wrap_add s.total_pledged amount
             pledgers :=
               if pl ∈ s.pledgers then s.pledgers else s.pledgers ++ [pl] }, []) := by
    simp [pledge, not_lt.mpr hmin, Nat.not_lt.mpr hdl]
  refine ⟨?_, ?_, ?_, ?_, ?_, ?_, ?_, ?_⟩
  · rw [hplok]
    rfl
  · rw [hplok]
    simp [ok_state, setF, wrap_add_eq hr1]
  · rw [hplok]
    simp [ok_state, wrap_add_eq hr2]
  · rw [hplok]
    simp [ok_state, setF, wrap_add_eq hr1]
    omega
  · rw [hplok]
    simp [ok_state, wrap_add_eq hr2]
    omega
  · intro now' c amount' ref hrate
    rcases hl : s.last_contribution_time c with _ | last
    · have hrateb : (match s.last_contribution_time c with
          | some last_time => decide (now' < last_time + CONTRIBUTION_COOLDOWN)
          | none => false) = false := by
        rw [hl]
      simp [contribute, hrateb, hpaused]
    · have hr' : last + CONTRIBUTION_COOLDOWN ≤ now' := by
        rw [hl] at hrate
        exact hrate
      have hrateb : (match s.last_contribution_time c with
          | some last_time => decide (now' < last_time + CONTRIBUTION_COOLDOWN)
          | none => false) = false := by
        rw [hl]
        simpa using Nat.not_lt.mpr hr'
      simp [contribute, hrateb, hpaused]
  · intro now'
    simp [withdraw, hpaused]
  · intro now'
    simp [refund, hpaused]

/-- Concrete paused campaign for the C10 witness. -/
def c10_state : CampaignState := { post_init 1 2 1000 10 1 with paused := true }

/-- Witness for C10: on a concrete paused campaign a pledge of 5 succeeds
and is recorded, while contribute, withdraw and refund all fail with
`ContractPaused`. -/
theorem C10_witness :
    call_ok (pledge 0 7 5 c10_state) = true ∧
    (ok_state (pledge 0 7 5 c10_state) c10_state).pledges 7 = 5 ∧
    (ok_state (pledge 0 7 5 c10_state) c10_state).total_pledged = 5 ∧
    contribute 0 3 5 none c10_state = .error .ContractPaused ∧
    withdraw 0 c10_state = .error .ContractPaused ∧
    refund 0 c10_state = .error .ContractPaused := by
  obtain ⟨h1, h2, h3, -, -, h6, h7, h8⟩ := C10_pledge_ignores_pause c10_state 0 7 5 rfl
    (by decide) (by decide) (by decide) (by decide) (by decide)
  exact ⟨h1, h2.trans (by decide), h3.trans (by decide),
    h6 0 3 5 none trivial, h7 0, h8 0⟩

-- ── Claim C9 ───────────────────────────────────────────────────────────────

/-- Next unmet milestone as the claim words it: the smallest stored stretch
goal strictly greater than `total_raised`, or the sentinel `0` if none
remain. Stated from the spec's words for comparison with the source's
`current_milestone`. -/
def smallest_unmet (total_raised : Int) (milestones : List Int) : Int :=
  match milestones.filter (fun m => decide (total_raised < m)) with
  | [] => 0
  | m :: ms => (m :: ms).foldl min m

theorem foldl_min_of_le {l : List Int} {m : Int} (h : ∀ x ∈ l, m ≤ x) :
    l.foldl min m = m := by
  induction l generalizing m with
  | nil => rfl
  | cons a l ih =>
    have hma : m ≤ a := h a (List.mem_cons_self a l)
    simp only [List.foldl_cons]
    rw [min_eq_left hma]
    exact ih (fun x hx => h x (List.mem_cons_of_mem a hx))

/-- On a non-decreasing milestone list the source's first-match scan agrees
with the smallest unmet milestone. -/
theorem milestone_scan_sorted (t : Int) (l : List Int) (hs : l.Pairwise (· ≤ ·)) :
    milestone_scan t l = smallest_unmet t l := by
  induction l with
  | nil => rfl
  | cons m rest ih =>
    obtain ⟨hm, hrest⟩ := List.pairwise_cons.mp hs
    by_cases hlt : t < m
    · have hfil : (m :: rest).filter (fun x => decide (t < x)) =
          m :: rest.filter (fun x => decide (t < x)) :=
        List.filter_cons_of_pos (by simpa using hlt)
      have hred : smallest_unmet t (m :: rest) =
          (m :: rest.filter (fun x => decide (t < x))).foldl min m := by
        unfold smallest_unmet
        rw [hfil]
      simp only [milestone_scan, if_pos hlt, hred, List.foldl_cons, min_self]
      refine (foldl_min_of_le ?_).symm
      intro x hx
      exact hm x (List.mem_filter.mp hx).1
    · have hfil : (m :: rest).filter (fun x => decide (t < x)) =
          rest.filter (fun x => decide (t < x)) :=
        List.filter_cons_of_neg (by simpa using hlt)
      have hred : smallest_unmet t (m :: rest) = smallest_unmet t rest := by
        unfold smallest_unmet
        rw [hfil]
      simp only [milestone_scan, if_neg hlt, hred]
      exact ih hrest

/-- State after the creator appends stretch goal 200 on a fresh campaign
with goal 100. -/
def c9_s1 : CampaignState :=
  ok_state (apply 0 (.addStretchGoalOp 200) (post_init 1 2 100 10 1))
    (post_init 1 2 100 10 1)

/-- State after the creator further appends stretch goal 150. -/
def c9_s2 : CampaignState :=
  ok_state (apply 0 (.addStretchGoalOp 150) c9_s1) (post_init 1 2 100 10 1)

/-- C9 counterexample: the creator appends milestones 200 then 150 (both
above the goal 100, both accepted); with `total_raised = 0` the smallest
unmet milestone is 150, but `current_milestone` returns 200 — the first in
insertion order, not the smallest. -/
theorem C9_counterexample :
    ReachableFrom (post_init 1 2 100 10 1) c9_s2 ∧
    c9_s2.total_raised = 0 ∧
    c9_s2.stretch_goals = [200, 150] ∧
    current_milestone c9_s2 = 200 ∧
    smallest_unmet c9_s2.total_raised c9_s2.stretch_goals = 150 ∧
    current_milestone c9_s2 ≠
      smallest_unmet c9_s2.total_raised c9_s2.stretch_goals := by
  refine ⟨?_, rfl, rfl, by decide, by decide, by decide⟩
  have h1 : apply 0 (.addStretchGoalOp 200) (post_init 1 2 100 10 1) =
      .ok (c9_s1, []) := rfl
  have h2 : apply 0 (.addStretchGoalOp 150) c9_s1 = .ok (c9_s2, []) := rfl
  exact ReachableFrom.step (ReachableFrom.step ReachableFrom.refl h1) h2

/-- C9 (amended): `current_milestone` returns the first stretch goal in
append order that exceeds `total_raised` (0 if none); this equals the
smallest unmet milestone whenever the creator appended the milestones in
non-decreasing order, but not for out-of-order appends. -/
theorem C9_first_unmet_when_sorted (s : CampaignState)
    (hs : s.stretch_goals.Pairwise (· ≤ ·)) :
    current_milestone s = smallest_unmet s.total_raised s.stretch_goals :=
  milestone_scan_sorted s.total_raised s.stretch_goals hs

/-- Concrete campaign for the C9 witness, with milestones appended in
increasing order. -/
def c9_w : CampaignState :=
  { post_init 1 2 100 10 1 with stretch_goals := [150, 200] }

/-- Witness for C9: on the sorted milestone list the scan returns the
smallest unmet milestone. -/
theorem C9_witness :
    current_milestone c9_w = smallest_unmet c9_w.total_raised c9_w.stretch_goals :=
  C9_first_unmet_when_sorted c9_w (by decide)

-- ── Claim C1 ───────────────────────────────────────────────────────────────

/-- Fresh campaign for the C1 counterexample: goal 5, deadline 10,
minimum 1. -/
def c1_s0 : CampaignState := post_init 1 2 5 10 1

/-- State after pledger 7 pledges 5 at timestamp 0. -/
def c1_s1 : CampaignState := ok_state (apply 0 (.pledgeOp 7 5) c1_s0) c1_s0

/-- State after `collect_pledges` succeeds at timestamp 11. -/
def c1_s2 : CampaignState := ok_state (apply 11 .collectPledgesOp c1_s1) c1_s0

/-- C1 counterexample: a state reached by successful operations including
`collect_pledges` (pledge 5, then collect after the deadline with the goal
met) is still Active but has `total_raised = 5` while the contributions of
the addresses in the Contributors set sum to 0 — `collect_pledges` folds
pledges into `total_raised` without recording them as contributions. -/
theorem C1_counterexample :
    ReachableFrom c1_s0 c1_s2 ∧
    c1_s2.status = .Active ∧
    c1_s2.total_raised = 5 ∧
    contrib_sum c1_s2 = 0 ∧
    c1_s2.total_raised ≠ contrib_sum c1_s2 := by
  refine ⟨?_, rfl, by decide, rfl, by decide⟩
  have h1 : apply 0 (.pledgeOp 7 5) c1_s0 = .ok (c1_s1, []) := rfl
  have h2 : apply 11 .collectPledgesOp c1_s1 =
      .ok (c1_s2, [(7, contract_address, 5)]) := rfl
  exact ReachableFrom.step (ReachableFrom.step ReachableFrom.refl h1) h2

/-- Transport of the conservation invariant along a step that leaves the
contribution accounting untouched. -/
theorem conservation_carry {s t : CampaignState}
    (h1 : t.total_raised = s.total_raised)
    (h2 : t.contributions = s.contributions)
    (h3 : t.contributors = s.contributors)
    (hP : s.total_raised = contrib_sum s ∧
      (∀ a, a ∉ s.contributors → s.contributions a = 0) ∧
      s.contributors.Nodup) :
    t.total_raised = contrib_sum t ∧
    (∀ a, a ∉ t.contributors → t.contributions a = 0) ∧
    t.contributors.Nodup := by
  unfold contrib_sum at *
  rw [h1, h2, h3]
  exact hP

/-- One collect-free step preserves the conservation invariant of Active
states (totals match the contribution sum, balances vanish outside the
contributor list, and the list has no duplicates). -/
theorem conservation_step (now : Nat) (op : Op) (s : CampaignState)
    (p : CampaignState × List Transfer)
    (hne : op ≠ .collectPledgesOp)
    (hP : s.status = .Active →
      s.total_raised = contrib_sum s ∧
      (∀ a, a ∉ s.contributors → s.contributions a = 0) ∧
      s.contributors.Nodup)
    (hok : apply now op s = .ok p) :
    p.1.status = .Active →
      p.1.total_raised = contrib_sum p.1 ∧
      (∀ a, a ∉ p.1.contributors → p.1.contributions a = 0) ∧
      p.1.contributors.Nodup := by
  intro hact
  have hsact : s.status = .Active := by
    rcases apply_ok_status_cases now op s p hok with he | ⟨ha, -⟩
    · rw [he] at hact
      exact hact
    · exact ha
  obtain ⟨hsum, hzero, hnd⟩ := hP hsact
  cases op with
  | initOp =>
    simp [apply] at hok
  | collectPledgesOp =>
    exact absurd rfl hne
  | contributeOp c amount ref =>
    simp only [apply] at hok
    obtain ⟨hc, -, -, -, -, -, -, -, hcontrib, htot, hmembers, -, -, -, -, -, -, -, -⟩ :=
      contribute_ok_shape hok
    refine ⟨?_, ?_, ?_⟩
    · have he : contrib_sum p.1 =
          contrib_sum s + min amount (hc - s.total_raised) := by
        unfold contrib_sum
        rw [hcontrib, hmembers]
        by_cases hmem : c ∈ s.contributors
        · rw [if_pos hmem, sum_map_setF_mem hmem hnd]
          ring
        · rw [if_neg hmem, List.map_append, List.sum_append,
            sum_map_setF_not_mem hmem]
          simp [setF, hzero c hmem]
      rw [htot, he, hsum]
    · intro a ha
      rw [hmembers] at ha
      rw [hcontrib]
      by_cases hmem : c ∈ s.contributors
      · rw [if_pos hmem] at ha
        have hac : a ≠ c := fun he' => ha (he' ▸ hmem)
        simp only [setF, if_neg hac]
        exact hzero a ha
      · rw [if_neg hmem] at ha
        simp only [List.mem_append, List.mem_singleton] at ha
        push_neg at ha
        obtain ⟨ha1, hac⟩ := ha
        simp only [setF, if_neg hac]
        exact hzero a ha1
    · rw [hmembers]
      by_cases hmem : c ∈ s.contributors
      · rw [if_pos hmem]
        exact hnd
      · rw [if_neg hmem]
        exact nodup_append_single hnd hmem
  | pledgeOp pl amount =>
    simp only [apply] at hok
    obtain ⟨-, -, -, -, -, hco, hme, htr, -, -, -⟩ := pledge_ok_shape hok
    exact conservation_carry htr hco hme ⟨hsum, hzero, hnd⟩
  | withdrawOp =>
    simp only [apply] at hok
    obtain ⟨-, -, -, -, hsucc, -⟩ := withdraw_ok_shape hok
    rw [hsucc] at hact
    exact nomatch hact
  | refundOp =>
    simp only [apply] at hok
    obtain ⟨-, -, -, -, href, -⟩ := refund_ok_shape hok
    rw [href] at hact
    exact nomatch hact
  | cancelOp =>
    simp only [apply] at hok
    obtain ⟨-, hcan, -⟩ := cancel_ok_shape hok
    rw [hcan] at hact
    exact nomatch hact
  | setPausedOp b =>
    obtain ⟨hco, hme, htr, -⟩ := apply_ok_frame hok (by trivial)
    exact conservation_carry htr hco hme ⟨hsum, hzero, hnd⟩
  | updateDeadlineOp nd =>
    obtain ⟨hco, hme, htr, -⟩ := apply_ok_frame hok (by trivial)
    exact conservation_carry htr hco hme ⟨hsum, hzero, hnd⟩
  | addStretchGoalOp m =>
    obtain ⟨hco, hme, htr, -⟩ := apply_ok_frame hok (by trivial)
    exact conservation_carry htr hco hme ⟨hsum, hzero, hnd⟩
  | addRoadmapItemOp d desc =>
    obtain ⟨hco, hme, htr, -⟩ := apply_ok_frame hok (by trivial)
    exact conservation_carry htr hco hme ⟨hsum, hzero, hnd⟩
  | addRewardTierOp caller name ma =>
    obtain ⟨hco, hme, htr, -⟩ := apply_ok_frame hok (by trivial)
    exact conservation_carry htr hco hme ⟨hsum, hzero, hnd⟩
  | updateMetadataOp caller t d so =>
    obtain ⟨hco, hme, htr, -⟩ := apply_ok_frame hok (by trivial)
    exact conservation_carry htr hco hme ⟨hsum, hzero, hnd⟩
  | upgradeOp =>
    obtain ⟨hco, hme, htr, -⟩ := apply_ok_frame hok (by trivial)
    exact conservation_carry htr hco hme ⟨hsum, hzero, hnd⟩

/-- C1 (amended): in every Active state reached from a freshly constructed
campaign (with or without the spec-intended HardCap write) by successful
operations none of which is `collect_pledges`, `total_raised` equals the
sum of the recorded contributions over the Contributors set. -/
theorem C1_conservation_no_collect (s0 s : CampaignState) (hinit : InitialState s0)
    (hreach : ReachableNoCollect s0 s) (hact : s.status = .Active) :
    s.total_raised = contrib_sum s := by
  obtain ⟨cr, tk, g, d, m, hc0, rfl⟩ := hinit
  have hP := reachable_nc_invariant
    (P := fun t => t.status = .Active →
      t.total_raised = contrib_sum t ∧
      (∀ a, a ∉ t.contributors → t.contributions a = 0) ∧
      t.contributors.Nodup)
    (fun _ => ⟨rfl, fun a _ => rfl, List.nodup_nil⟩)
    (fun now op t q hne hQ hok => conservation_step now op t q hne hQ hok)
    s hreach
  exact (hP hact).1

/-- Witness for C1: the freshly constructed campaign is Active with
`total_raised = 0` and an empty contribution sum. -/
theorem C1_witness :
    (post_init 1 2 5 10 1).total_raised = contrib_sum (post_init 1 2 5 10 1) :=
  C1_conservation_no_collect _ _ ⟨1, 2, 5, 10, 1, none, rfl⟩
    ReachableNoCollect.refl rfl

-- ── Claim C8 ───────────────────────────────────────────────────────────────

/-- Campaign with the spec-intended HardCap write for the C8 counterexample:
goal 1000000, deadline 10, minimum 1000, hard cap 2000000. -/
def c8_s0 : CampaignState := post_init_spec 1 2 1000000 10 1000 2000000

/-- State after contributor 7 contributes 300000 at timestamp 0. -/
def c8_s1 : CampaignState :=
  ok_state (apply 0 (.contributeOp 7 300000 none) c8_s0) c8_s0

/-- State after the bulk `refund` succeeds at timestamp 11. -/
def c8_s2 : CampaignState := ok_state (apply 11 .refundOp c8_s1) c8_s0

/-- Campaign with the spec-intended HardCap write and a zero minimum
contribution (the spec only requires the minimum to be non-negative):
goal 1000000, deadline 10, minimum 0, hard cap 2000000. -/
def c8_z0 : CampaignState := post_init_spec 1 2 1000000 10 0 2000000

/-- State after contributor 7 contributes 0 at timestamp 0 — the amount
passes the `amount < min_contribution` gate because the minimum is 0, and
the clamp keeps the effective amount at 0. -/
def c8_z1 : CampaignState :=
  ok_state (apply 0 (.contributeOp 7 0 none) c8_z0) c8_z0

/-- C8 counterexample, exhibiting both ways the biconditional fails on
reachable states. First: after a successful bulk refund, address 7 is still
a member of the Contributors set although its zeroed contribution is not
greater than 0 — `refund` zeroes balances but never removes addresses.
Second: on a campaign whose `min_contribution` is 0, a successful
zero-amount contribution inserts address 7 into the Contributors set with a
zero balance while the campaign is still Active. -/
theorem C8_counterexample :
    (ReachableFrom c8_s0 c8_s2 ∧
      7 ∈ c8_s2.contributors ∧
      c8_s2.contributions 7 = 0 ∧
      ¬(7 ∈ c8_s2.contributors ↔ 0 < c8_s2.contributions 7)) ∧
    (ReachableFrom c8_z0 c8_z1 ∧
      c8_z1.status = .Active ∧
      c8_z0.min_contribution = 0 ∧
      7 ∈ c8_z1.contributors ∧
      c8_z1.contributions 7 = 0 ∧
      ¬(7 ∈ c8_z1.contributors ↔ 0 < c8_z1.contributions 7)) := by
  constructor
  · refine ⟨?_, by decide, by decide, ?_⟩
    · have h1 : apply 0 (.contributeOp 7 300000 none) c8_s0 =
          .ok (c8_s1, [(7, contract_address, 300000)]) := rfl
      have h2 : apply 11 .refundOp c8_s1 =
          .ok (c8_s2, [(contract_address, 7, 300000)]) := rfl
      exact ReachableFrom.step (ReachableFrom.step ReachableFrom.refl h1) h2
    · intro hiff
      have h7 : (7 : Nat) ∈ c8_s2.contributors := by decide
      have := hiff.mp h7
      rw [show c8_s2.contributions 7 = 0 from by decide] at this
      exact absurd this (by decide)
  · refine ⟨?_, rfl, rfl, by decide, by decide, ?_⟩
    · have h1 : apply 0 (.contributeOp 7 0 none) c8_z0 =
          .ok (c8_z1, [(7, contract_address, 0)]) := rfl
      exact ReachableFrom.step ReachableFrom.refl h1
    · intro hiff
      have h7 : (7 : Nat) ∈ c8_z1.contributors := by decide
      have := hiff.mp h7
      rw [show c8_z1.contributions 7 = 0 from by decide] at this
      exact absurd this (by decide)

/-- One successful step preserves the membership invariant of Active states
(balances vanish outside the contributor list and are positive inside it)
together with the positivity of the minimum contribution. -/
theorem membership_step (now : Nat) (op : Op) (s : CampaignState)
    (p : CampaignState × List Transfer)
    (hP : 0 < s.min_contribution ∧
      (s.status = .Active →
        (∀ a, a ∉ s.contributors → s.contributions a = 0) ∧
        (∀ a, a ∈ s.contributors → 0 < s.contributions a)))
    (hok : apply now op s = .ok p) :
    0 < p.1.min_contribution ∧
    (p.1.status = .Active →
      (∀ a, a ∉ p.1.contributors → p.1.contributions a = 0) ∧
      (∀ a, a ∈ p.1.contributors → 0 < p.1.contributions a)) := by
  have hminp : p.1.min_contribution = s.min_contribution :=
    (apply_ok_fixed_fields now op s p hok).2.2.1
  refine ⟨hminp ▸ hP.1, ?_⟩
  intro hact
  have hsact : s.status = .Active := by
    rcases apply_ok_status_cases now op s p hok with he | ⟨ha, -⟩
    · rw [he] at hact
      exact hact
    · exact ha
  obtain ⟨hzero, hpos⟩ := hP.2 hsact
  cases op with
  | initOp =>
    simp [apply] at hok
  | contributeOp c amount ref =>
    simp only [apply] at hok
    obtain ⟨hc, -, -, hminle, -, hltcap, -, -, hcontrib, -, hmembers, -, -, -, -, -, -, -, -⟩ :=
      contribute_ok_shape hok
    have heffpos : 0 < min amount (hc - s.total_raised) :=
      lt_min (lt_of_lt_of_le hP.1 hminle) (by omega)
    constructor
    · intro a ha
      rw [hmembers] at ha
      rw [hcontrib]
      by_cases hmem : c ∈ s.contributors
      · rw [if_pos hmem] at ha
        have hac : a ≠ c := fun he' => ha (he' ▸ hmem)
        simp only [setF, if_neg hac]
        exact hzero a ha
      · rw [if_neg hmem] at ha
        simp only [List.mem_append, List.mem_singleton] at ha
        push_neg at ha
        obtain ⟨ha1, hac⟩ := ha
        simp only [setF, if_neg hac]
        exact hzero a ha1
    · intro a ha
      rw [hmembers] at ha
      rw [hcontrib]
      by_cases hac : a = c
      · subst hac
        simp only [setF, if_pos rfl]
        by_cases hmem : a ∈ s.contributors
        · exact add_pos (hpos a hmem) heffpos
        · rw [hzero a hmem]
          simpa using heffpos
      · simp only [setF, if_neg hac]
        refine hpos a ?_
        by_cases hmem : c ∈ s.contributors
        · rw [if_pos hmem] at ha
          exact ha
        · rw [if_neg hmem] at ha
          rcases List.mem_append.mp ha with h | h
          · exact h
          · exact absurd (List.mem_singleton.mp h) hac
  | pledgeOp pl amount =>
    simp only [apply] at hok
    obtain ⟨-, -, -, -, -, hco, hme, -, -, -, -⟩ := pledge_ok_shape hok
    rw [hco, hme]
    exact ⟨hzero, hpos⟩
  | collectPledgesOp =>
    simp only [apply] at hok
    obtain ⟨-, -, -, -, -, hco, hme, -, -⟩ := collect_pledges_ok_shape hok
    rw [hco, hme]
    exact ⟨hzero, hpos⟩
  | withdrawOp =>
    simp only [apply] at hok
    obtain ⟨-, -, -, -, hsucc, -⟩ := withdraw_ok_shape hok
    rw [hsucc] at hact
    exact nomatch hact
  | refundOp =>
    simp only [apply] at hok
    obtain ⟨-, -, -, -, href, -⟩ := refund_ok_shape hok
    rw [href] at hact
    exact nomatch hact
  | cancelOp =>
    simp only [apply] at hok
    obtain ⟨-, hcan, -⟩ := cancel_ok_shape hok
    rw [hcan] at hact
    exact nomatch hact
  | setPausedOp b =>
    obtain ⟨hco, hme, -⟩ := apply_ok_frame hok (by trivial)
    rw [hco, hme]
    exact ⟨hzero, hpos⟩
  | updateDeadlineOp nd =>
    obtain ⟨hco, hme, -⟩ := apply_ok_frame hok (by trivial)
    rw [hco, hme]
    exact ⟨hzero, hpos⟩
  | addStretchGoalOp m =>
    obtain ⟨hco, hme, -⟩ := apply_ok_frame hok (by trivial)
    rw [hco, hme]
    exact ⟨hzero, hpos⟩
  | addRoadmapItemOp d desc =>
    obtain ⟨hco, hme, -⟩ := apply_ok_frame hok (by trivial)
    rw [hco, hme]
    exact ⟨hzero, hpos⟩
  | addRewardTierOp caller name ma =>
    obtain ⟨hco, hme, -⟩ := apply_ok_frame hok (by trivial)
    rw [hco, hme]
    exact ⟨hzero, hpos⟩
  | updateMetadataOp caller t d so =>
    obtain ⟨hco, hme, -⟩ := apply_ok_frame hok (by trivial)
    rw [hco, hme]
    exact ⟨hzero, hpos⟩
  | upgradeOp =>
    obtain ⟨hco, hme, -⟩ := apply_ok_frame hok (by trivial)
    rw [hco, hme]
    exact ⟨hzero, hpos⟩

/-- C8 (amended): while the campaign is Active and its minimum contribution
is positive, an address is in the Contributors set iff its recorded
contribution is greater than 0, in every state reachable from a freshly
constructed campaign with or without the spec-intended HardCap write. Both
restrictions are forced by `C8_counterexample`: after `refund` or `cancel`
the status is terminal and balances are zeroed while the addresses stay in
the set, and with a zero minimum contribution a successful zero-amount
contribution inserts an address with a zero balance while still Active. -/
theorem C8_membership_iff_positive (s0 s : CampaignState) (hinit : InitialState s0)
    (hmin0 : 0 < s0.min_contribution)
    (hreach : ReachableFrom s0 s) (hact : s.status = .Active) (a : Nat) :
    a ∈ s.contributors ↔ 0 < s.contributions a := by
  have hQ := reachable_invariant
    (P := fun t => 0 < t.min_contribution ∧
      (t.status = .Active →
        (∀ b, b ∉ t.contributors → t.contributions b = 0) ∧
        (∀ b, b ∈ t.contributors → 0 < t.contributions b)))
    (by
      obtain ⟨cr, tk, g, d, m, hc0, rfl⟩ := hinit
      exact ⟨hmin0, fun _ => ⟨fun b _ => rfl, fun b hb => absurd hb (List.not_mem_nil b)⟩⟩)
    (fun now op t q hQ hok => membership_step now op t q hQ hok)
    s hreach
  obtain ⟨hzero, hpos⟩ := hQ.2 hact
  constructor
  · exact hpos a
  · intro hp
    by_contra hnot
    rw [hzero a hnot] at hp
    exact absurd hp (by decide)

/-- Witness for C8: on the freshly constructed campaign no address is a
member and no balance is positive. -/
theorem C8_witness :
    (7 : Nat) ∈ (post_init 1 2 5 10 1).contributors ↔
      0 < (post_init 1 2 5 10 1).contributions 7 :=
  C8_membership_iff_positive _ _ ⟨1, 2, 5, 10, 1, none, rfl⟩ (by decide)
    ReachableFrom.refl rfl 7

end Crowdfund
